import Mathlib

/-!
Verification development for the `ts-typed-api` contract-to-runtime binding
engine.  The definitions below are shallow embeddings of the runtime parts of
`src/src/definition.ts`, `src/src/handler.ts`, `src/src/router/client.ts` and
the Hono adapter (`src/unnamed/part_019`): JSON values crossing the wire, the
subset of the Zod schema algebra the library constructs, `CreateResponses`,
`preprocessQueryParams`, the per-route dispatch closure with its `respond`
capability and ZodError catch, the middleware wrappers, and the call client's
response demultiplexing.  JavaScript objects are modelled as ordered key/value
lists with unique keys; numbers as integers (the claims only involve integral
values); `undefined` is not representable, matching the JSON wire format.
-/

mutual
/-- A JSON value as manipulated by the library: the bodies validated by Zod
schemas and written with `res.status(..).json(..)` / `c.json(..)`.  Mutual with
`JsonList`/`JsonObj` so that all functions below are structurally recursive. -/
inductive Json where
  | null
  | jbool (b : Bool)
  | num (n : Int)
  | str (s : String)
  | arr (xs : JsonList)
  | obj (fs : JsonObj)
deriving Repr, DecidableEq
/-- A list of JSON values (an array's elements). -/
inductive JsonList where
  | nil
  | cons (hd : Json) (tl : JsonList)
deriving Repr, DecidableEq
/-- The fields of a JSON object, in insertion order; keys are unique in every
object produced by the JavaScript runtime. -/
inductive JsonObj where
  | nil
  | cons (key : String) (val : Json) (tl : JsonObj)
deriving Repr, DecidableEq
end

/-- Property access `o[k]` on an object: the value of the first field named
`k`, if any (JavaScript objects have unique keys). -/
def objLookup : JsonObj → String → Option Json
  | .nil, _ => none
  | .cons k v t, key => if k = key then some v else objLookup t key

/-- Property access `j.k` on an arbitrary JSON value: `undefined` (here
`none`) unless `j` is an object with the field. -/
def jsonGet (j : Json) (key : String) : Option Json :=
  match j with
  | .obj fs => objLookup fs key
  | _ => none

/-- The keys of an object, in order. -/
def objKeys : JsonObj → List String
  | .nil => []
  | .cons k _ t => k :: objKeys t

deriving instance DecidableEq for Except

/-- One entry of a `ZodError`'s `issues` array: the `path` into the parsed
value (indices rendered as decimal strings, as `String(err.path[0])` and
`err.path.join('.')` do) and the `message`. -/
structure Issue where
  path : List String
  message : String
deriving Repr, DecidableEq

/-- Prefix every issue path with a segment (entering an object field or an
array element). -/
def prefixIssues (seg : String) (issues : List Issue) : List Issue :=
  issues.map (fun i => ⟨seg :: i.path, i.message⟩)

/-- Join a path with dots, as `err.path.join('.')`. -/
def joinDot : List String → String
  | [] => ""
  | [p] => p
  | p :: rest => p ++ "." ++ joinDot rest

/-- Concatenate with commas, for the unrecognized-keys message. -/
def joinComma : List String → String
  | [] => ""
  | [p] => p
  | p :: rest => p ++ ", " ++ joinComma rest

mutual
/-- The subset of the Zod schema algebra that the library builds in
`src/src/definition.ts` and walks in `preprocessQueryParams`
(`src/src/handler.ts` 30-80): primitive types, `z.any()`, enums, objects
(with zod's `strict` vs default strip mode for unknown keys), `.optional()`,
`.default(..)`, `.nullable()`, the single `.refine(val => val !== null)` of
`errorUnifiedResponseSchema` (`src/src/definition.ts` 43-45), and
`arrDetailS`, the one array schema the envelope algebra constructs:
`z.array(errorDetailSchema)` (`src/src/definition.ts` 30). -/
inductive Schema where
  | strS
  | numS
  | boolS
  | anyS
  | enumS (variants : List String)
  | objS (shape : Shape) (strictMode : Bool)
  | arrDetailS
  | optS (inner : Schema)
  | defaultS (inner : Schema) (dflt : Json)
  | nullableS (inner : Schema)
  | refineNotNull (inner : Schema)
deriving Repr, DecidableEq
/-- The `shape` of a `z.object(..)`: field name / field schema pairs. -/
inductive Shape where
  | nil
  | cons (key : String) (sch : Schema) (rest : Shape)
deriving Repr, DecidableEq
end

/-- `shape[key]`: the schema declared for field `key`, if any. -/
def shapeLookup : Shape → String → Option Schema
  | .nil, _ => none
  | .cons k s t, key => if k = key then some s else shapeLookup t key

/-- Whether `key` is declared in the shape. -/
def shapeHasKey (sh : Shape) (key : String) : Bool :=
  (shapeLookup sh key).isSome

/-- Keys of the input object that the shape does not declare (zod's
`unrecognized_keys` computation for strict objects). -/
def unknownKeys : JsonObj → Shape → List String
  | .nil, _ => []
  | .cons k _ t, sh =>
      if shapeHasKey sh k then unknownKeys t sh else k :: unknownKeys t sh

/-- zod's treatment of a declared field that is absent from the input object:
`.optional()` fields are omitted from the output, `.default(d)` fields produce
`d`, `z.any()` accepts `undefined`, everything else raises a required-field
issue. -/
inductive AbsentBehavior where
  | omitKey
  | useDefault (d : Json)
  | requiredErr
deriving Repr, DecidableEq

/-- Dispatch on the outermost wrapper for an absent field. -/
def absentBehavior : Schema → AbsentBehavior
  | .optS _ => .omitKey
  | .defaultS _ d => .useDefault d
  | .anyS => .omitKey
  | _ => .requiredErr

/-- The issues of a failed parse result (empty on success). -/
def issuesOf : Except (List Issue) Json → List Issue
  | .ok _ => []
  | .error es => es

/-- `errorDetailSchema.safeParse` (`src/src/definition.ts` 23-27) specialized
to its flat shape `{ field: z.string(), type: z.enum([..]), message:
z.string() }` in default (strip) mode: parse the three declared fields,
collecting an issue per failing field, and drop undeclared keys. -/
def zparseErrorDetail : Json → Except (List Issue) Json
  | .obj fs =>
      let pStr := fun (k : String) =>
        match objLookup fs k with
        | none => Except.error [(⟨[k], "Required"⟩ : Issue)]
        | some (Json.str s) => Except.ok (Json.str s)
        | some _ => Except.error [(⟨[k], "Invalid input: expected string"⟩ : Issue)]
      let pType :=
        match objLookup fs "type" with
        | none => Except.error [(⟨["type"], "Required"⟩ : Issue)]
        | some (Json.str s) =>
            if ["body", "query", "param", "general"].contains s then
              Except.ok (Json.str s)
            else Except.error [(⟨["type"], "Invalid enum value"⟩ : Issue)]
        | some _ => Except.error [(⟨["type"], "Invalid enum value"⟩ : Issue)]
      match pStr "field", pType, pStr "message" with
      | .ok f, .ok t, .ok m =>
          .ok (.obj (.cons "field" f (.cons "type" t (.cons "message" m .nil))))
      | r1, r2, r3 =>
          .error (issuesOf r1 ++ issuesOf r2 ++ issuesOf r3)
  | _ => .error [⟨[], "Invalid input: expected object"⟩]

/-- Element-wise parse of `z.array(errorDetailSchema)`: issues carry the
element index as their leading path segment. -/
def zparseDetailList : JsonList → Nat → (List Issue) × JsonList
  | .nil, _ => ([], .nil)
  | .cons hd tl, idx =>
      let r := zparseDetailList tl (idx + 1)
      match zparseErrorDetail hd with
      | .ok w => (r.1, .cons w r.2)
      | .error es => (prefixIssues (toString idx) es ++ r.1, r.2)

mutual
/-- `schema.safeParse(value)` for the modelled schema fragment, with zod's
semantics: objects parse their declared fields (collecting all issues, with
paths relative to the parsed value), strip undeclared keys in default mode
and reject them in `strict` mode; `.optional()`/`.default(..)` wrappers parse
a present value through their inner schema (absent fields are handled by
`absentBehavior` inside objects); `.nullable()` admits `null`; the not-null
refinement rejects a `null` result.  Success returns the parsed
(canonicalized) output value, as `safeParse(..).data`. -/
def zparse : Schema → Json → Except (List Issue) Json
  | .strS, .str s => .ok (.str s)
  | .strS, _ => .error [⟨[], "Invalid input: expected string"⟩]
  | .numS, .num n => .ok (.num n)
  | .numS, _ => .error [⟨[], "Invalid input: expected number"⟩]
  | .boolS, .jbool b => .ok (.jbool b)
  | .boolS, _ => .error [⟨[], "Invalid input: expected boolean"⟩]
  | .anyS, v => .ok v
  | .enumS vs, .str s =>
      if vs.contains s then .ok (.str s)
      else .error [⟨[], "Invalid enum value"⟩]
  | .enumS _, _ => .error [⟨[], "Invalid enum value"⟩]
  | .objS shape strictMode, .obj fs =>
      let r := zparseShape shape fs
      let unknowns := unknownKeys fs shape
      let allIssues :=
        r.1 ++ (if strictMode && !unknowns.isEmpty then
          [⟨[], "Unrecognized key(s) in object: " ++ joinComma unknowns⟩] else [])
      if allIssues.isEmpty then .ok (.obj r.2) else .error allIssues
  | .objS _ _, _ => .error [⟨[], "Invalid input: expected object"⟩]
  | .arrDetailS, .arr xs =>
      let r := zparseDetailList xs 0
      if r.1.isEmpty then .ok (.arr r.2) else .error r.1
  | .arrDetailS, _ => .error [⟨[], "Invalid input: expected array"⟩]
  | .optS inner, v => zparse inner v
  | .defaultS inner _, v => zparse inner v
  | .nullableS _, .null => .ok .null
  | .nullableS inner, v => zparse inner v
  | .refineNotNull inner, v =>
      match zparse inner v with
      | .ok w =>
          if w = Json.null then
            .error [⟨[], "Error list cannot be null for errorUnifiedResponseSchema"⟩]
          else .ok w
      | .error es => .error es

/-- Parse the declared fields of an object, in shape order: collected issues
(with paths prefixed by the field name) and the output fields. -/
def zparseShape : Shape → JsonObj → (List Issue) × JsonObj
  | .nil, _ => ([], .nil)
  | .cons k sch rest, fs =>
      let r := zparseShape rest fs
      match objLookup fs k with
      | none =>
          match absentBehavior sch with
          | .omitKey => r
          | .useDefault d => (r.1, .cons k d r.2)
          | .requiredErr => (⟨[k], "Required"⟩ :: r.1, r.2)
      | some v =>
          match zparse sch v with
          | .ok w => (r.1, .cons k w r.2)
          | .error es => (prefixIssues k es ++ r.1, r.2)
end

example : zparse .strS (.str "x") = .ok (.str "x") := rfl

example :
    zparse (.objS (.cons "a" .strS .nil) true)
      (.obj (.cons "a" (.str "x") (.cons "b" (.str "y") .nil))) =
    .error [⟨[], "Unrecognized key(s) in object: b"⟩] := by decide

example :
    zparse (.objS (.cons "a" .strS .nil) false)
      (.obj (.cons "a" (.str "x") (.cons "b" (.str "y") .nil))) =
    .ok (.obj (.cons "a" (.str "x") .nil)) := by decide

/-- `errorDetailSchema` (`src/src/definition.ts` 23-27) as a schema value,
for reference alongside its specialized parser `zparseErrorDetail`. -/
def errorDetailSchema : Schema :=
  .objS (.cons "field" .strS
    (.cons "type" (.enumS ["body", "query", "param", "general"])
    (.cons "message" .strS .nil))) false

/-- `unifiedErrorSchema` (`src/src/definition.ts` 30):
`z.array(errorDetailSchema).nullable()`. -/
def unifiedErrorSchema : Schema := .nullableS .arrDetailS

/-- The mandatory error-list field of the 422 envelope:
`unifiedErrorSchema.refine(val => val !== null, ..)`
(`src/src/definition.ts` 44). -/
def unifiedErrorRequired : Schema := .refineNotNull unifiedErrorSchema

/-- `errorUnifiedResponseSchema` (`src/src/definition.ts` 43-45): the fixed
422 validation-error envelope, `z.object({ error: .. })` in default (strip)
mode — note its shape declares only `error`, not `data`. -/
def errorUnifiedResponseSchema : Schema :=
  .objS (.cons "error" unifiedErrorRequired .nil) false

/-- `createSuccessUnifiedResponseSchema` (`src/src/definition.ts` 35-39):
`z.object({ data: dataSchema })`, strip mode. -/
def createSuccessUnifiedResponseSchema (dataSchema : Schema) : Schema :=
  .objS (.cons "data" dataSchema .nil) false

/-- `makeSchemaStrict` (`src/src/definition.ts` 78-85): only `ZodObject` has a
`.strict()` method, so object schemas become strict and every other schema is
returned unchanged. -/
def makeSchemaStrict : Schema → Schema
  | .objS shape _ => .objS shape true
  | s => s

/-- An entry of the map given to `CreateResponses`: either a Zod schema or a
`TsTypeMarker` produced by `CustomResponse<T>()` (`src/src/definition.ts`
4-17). -/
inductive SchemaOrMarker where
  | zodS (s : Schema)
  | marker
deriving Repr, DecidableEq

/-- How `CreateResponses` wraps one entry (`src/src/definition.ts` 100-112):
a marker becomes `z.object({ data: z.any() }).strict()`; a Zod schema is made
strict and wrapped as `z.object({ data: strictSchema })`. -/
def wrapResponseEntry : SchemaOrMarker → Schema
  | .marker => .objS (.cons "data" .anyS .nil) true
  | .zodS s => createSuccessUnifiedResponseSchema (makeSchemaStrict s)

/-- Assignment `builtResult[k] = v` on an object keyed by status code:
overwrite any existing binding or append a new one. -/
def updateKey (rs : List (Nat × Schema)) (k : Nat) (v : Schema) :
    List (Nat × Schema) :=
  if rs.any (fun p => p.1 = k) then
    rs.map (fun p => if p.1 = k then (k, v) else p)
  else rs ++ [(k, v)]

/-- `CreateResponses` (`src/src/definition.ts` 89-124): wrap every supplied
entry, then always set/overwrite the `422` response to
`errorUnifiedResponseSchema`. -/
def CreateResponses (schemas : List (Nat × SchemaOrMarker)) :
    List (Nat × Schema) :=
  updateKey (schemas.map (fun p => (p.1, wrapResponseEntry p.2)))
    422 errorUnifiedResponseSchema

/-- `routeDefinition.responses[status]` lookup. -/
def responsesLookup (rs : List (Nat × Schema)) (status : Nat) : Option Schema :=
  match rs with
  | [] => none
  | p :: t => if p.1 = status then some p.2 else responsesLookup t status

/-- One `ErrorDetail` value (`{ field, type, message }`). -/
structure ErrorDetail where
  field : String
  etype : String
  message : String
deriving Repr, DecidableEq

/-- The JSON form of an `ErrorDetail`. -/
def errorDetailJson (d : ErrorDetail) : Json :=
  .obj (.cons "field" (.str d.field)
    (.cons "type" (.str d.etype)
    (.cons "message" (.str d.message) .nil)))

/-- A JSON array of `ErrorDetail`s. -/
def errorListJson : List ErrorDetail → JsonList
  | [] => .nil
  | d :: t => .cons (errorDetailJson d) (errorListJson t)

/-- The literal 500 bodies written by the Express dispatch code on internal
errors, e.g. `{ error: [{ field: "general", type: "general", message }] }`
(`src/src/handler.ts` 311-314, 347-350, 386, 394, 397): they carry no `data`
key. -/
def generalErrBody (msg : String) : Json :=
  .obj (.cons "error" (.arr (errorListJson [⟨"general", "general", msg⟩])) .nil)

/-- The `respond(status, dataForResponse)` capability installed on the Express
response (`src/src/handler.ts` 304-352): look up the declared schema for the
status (500 if absent); build `{ data: null, error: dataForResponse }` for 422
and `{ data: dataForResponse, error: null }` otherwise; validate that object
against the declared schema; on success write the status and the **validated**
body, on failure write a 500 with a generic error.  Returns the
`(statusCode, jsonBody)` pair passed to `res.status(..).json(..)`. -/
def respond (responses : List (Nat × Schema)) (status : Nat)
    (dataForResponse : Json) : Nat × Json :=
  match responsesLookup responses status with
  | none =>
      (500, generalErrBody
        "Internal server error: Undefined response schema for status.")
  | some sch =>
      let responseBodyToValidate : Json :=
        if status = 422 then
          .obj (.cons "data" .null (.cons "error" dataForResponse .nil))
        else
          .obj (.cons "data" dataForResponse (.cons "error" .null .nil))
      match zparse sch responseBodyToValidate with
      | .ok v => (status, v)
      | .error _ =>
          (500, generalErrBody
            "Internal server error: Constructed response failed validation.")

example :
    respond (CreateResponses []) 422
      (.arr (errorListJson [⟨"name", "general", "boom"⟩])) =
    (422, .obj (.cons "error"
      (.arr (errorListJson [⟨"name", "general", "boom"⟩])) .nil)) := by decide

/-- JavaScript whitespace accepted by `Number(..)` (the common subset). -/
def isJsSpace (c : Char) : Bool :=
  c = ' ' || c = '\t' || c = '\n' || c = '\r'

/-- Digits-only conversion for the decimal fragment. -/
def digitsToNat : List Char → Option Nat
  | [] => none
  | cs => cs.foldl (fun acc c =>
      match acc with
      | none => none
      | some n => if c.isDigit then some (n * 10 + (c.toNat - 48)) else none)
      (some 0)

/-- The host `Number(value)` conversion restricted to the decimal-integer
fragment (the modelled JSON numbers are integers): surrounding whitespace is
ignored, the empty (or all-whitespace) string converts to `0`, an optional
sign precedes the digits, and every other string is `NaN` (here `none`).
Fractional, exponent and radix-prefixed numerals lie outside the modelled
value domain. -/
def jsNumberOfString (s : String) : Option Int :=
  let cs := ((s.data.dropWhile isJsSpace).reverse.dropWhile isJsSpace).reverse
  match cs with
  | [] => some 0
  | '+' :: rest => (digitsToNat rest).map Int.ofNat
  | '-' :: rest => (digitsToNat rest).map (fun n => -(n : Int))
  | _ => (digitsToNat cs).map Int.ofNat

example : jsNumberOfString "42" = some 42 := by decide
example : jsNumberOfString "abc" = none := by decide
example : jsNumberOfString "" = some 0 := by decide

/-- The net effect of the wrapper-unwrapping block of `preprocessQueryParams`
(`src/src/handler.ts` 44-60): the two initial `if`s plus the `while` loop
strip every outer `ZodOptional`/`ZodDefault` wrapper from the field schema. -/
def unwrapOptDefault : Schema → Schema
  | .optS inner => unwrapOptDefault inner
  | .defaultS inner _ => unwrapOptDefault inner
  | s => s

/-- The per-field coercion of `preprocessQueryParams` (`src/src/handler.ts`
62-74): only string values with a declared field schema are considered; a
`ZodNumber` field becomes `Number(value)` unless that is `NaN`, a
`ZodBoolean` field maps the literals `'true'`/`'false'`; anything else is
left unchanged. -/
def coerceQueryValue (fieldSchema : Schema) (v : Json) : Json :=
  match v with
  | .str s =>
      match unwrapOptDefault fieldSchema with
      | .numS =>
          match jsNumberOfString s with
          | some n => .num n
          | none => .str s
      | .boolS =>
          if s = "true" then .jbool true
          else if s = "false" then .jbool false
          else .str s
      | _ => .str s
  | other => other

/-- The `Object.entries(processedQuery)` loop of `preprocessQueryParams`:
each field with a declared schema (`shape[key]`) gets the coercion applied;
undeclared fields are untouched. -/
def preprocessObjFields : JsonObj → Shape → JsonObj
  | .nil, _ => .nil
  | .cons k v rest, shape =>
      match shapeLookup shape k with
      | some fieldSchema =>
          .cons k (coerceQueryValue fieldSchema v) (preprocessObjFields rest shape)
      | none => .cons k v (preprocessObjFields rest shape)

/-- `preprocessQueryParams(query, querySchema)` (`src/src/handler.ts` 30-80):
with no schema or a falsy query the input is returned as-is; the coercion
pre-pass only fires when the schema is a `ZodObject`; the result is a fresh
copy (`{ ...query }`), the inbound object is not mutated.  The transport
always supplies the query as an object; other values pass through. -/
def preprocessQueryParams (query : Json) (querySchema : Option Schema) : Json :=
  match querySchema, query with
  | none, q => q
  | some _, .null => .null
  | some (.objS shape _), .obj fs => .obj (preprocessObjFields fs shape)
  | some _, q => q

/-- The `ZodError` issue-to-`ErrorDetail` mapping of the dispatch catch block
(`src/src/handler.ts` 362-375 and `src/unnamed/part_019` 418-432):
`String(err.path[0])` is compared against the literal names
`'params'`/`'query'`/`'body'` (an empty path gives `String(undefined) =
"undefined"`), defaulting to `'general'`; the `field` is `err.path.join('.')
|| 'request'`. -/
def mapIssueToErrorDetail (iss : Issue) : ErrorDetail :=
  let pathZero := match iss.path with
    | [] => "undefined"
    | p :: _ => p
  let etype :=
    if pathZero = "params" then "param"
    else if pathZero = "query" then "query"
    else if pathZero = "body" then "body"
    else "general"
  let field := if iss.path.isEmpty then "request" else joinDot iss.path
  ⟨field, etype, iss.message⟩

/-- The `z.ZodError` branch of the dispatch catch (`src/src/handler.ts`
377-391, identically `src/unnamed/part_019` 434-446): map the issues, build
`{ data: null, error: mappedErrors }`, validate it against the route's 422
schema and write the **validated** result; fall back to a 500 if that
validation fails, or to the raw `{ error: mappedErrors }` if no 422 schema
exists. -/
def zodCatch422 (responses : List (Nat × Schema)) (issues : List Issue) :
    Nat × Json :=
  let mapped := issues.map mapIssueToErrorDetail
  let errorResponseBody : Json :=
    .obj (.cons "data" .null
      (.cons "error" (.arr (errorListJson mapped)) .nil))
  match responsesLookup responses 422 with
  | some schema422 =>
      match zparse schema422 errorResponseBody with
      | .ok v => (422, v)
      | .error _ =>
          (500, generalErrBody
            "Internal server error constructing validation error response.")
  | none => (422, .obj (.cons "error" (.arr (errorListJson mapped)) .nil))

/-- The HTTP methods of the contract model (`src/src/definition.ts`
155-162). -/
inductive Method where
  | GET
  | HEAD
  | OPTIONS
  | POST
  | PUT
  | DELETE
  | PATCH
deriving Repr, DecidableEq

/-- The runtime content of one `RouteSchema` (`src/src/definition.ts`
164-189): optional params/query/body schemas and the responses map. -/
structure RouteModel where
  method : Method
  params : Option Schema
  query : Option Schema
  body : Option Schema
  responses : List (Nat × Schema)
deriving Repr

/-- The inbound request view the dispatch closure reads:
`expressReq.params`, `expressReq.query`, `expressReq.body`. -/
structure RequestModel where
  params : Json
  query : Json
  body : Json
deriving Repr, DecidableEq

/-- `schema.parse(input)` for an optionally-declared schema: the inline
conditionals `('params' in routeDefinition && routeDefinition.params) ? ..
: expressReq.params` of the dispatch closures. -/
def parsePart (os : Option Schema) (j : Json) : Except (List Issue) Json :=
  match os with
  | some s => zparse s j
  | none => .ok j

/-- The Express body rule (`src/src/handler.ts` 274-276): the body is parsed
**only when the method is `POST` or `PUT`** and a body schema is declared;
otherwise the raw `expressReq.body` is passed through. -/
def expressBodyParse (m : Method) (os : Option Schema) (b : Json) :
    Except (List Issue) Json :=
  if m = .POST || m = .PUT then parsePart os b else .ok b

/-- The Hono body rule (`src/unnamed/part_019` 311-324): the body is parsed
for all of `POST`/`PUT`/`DELETE`/`PATCH` when a body schema is declared (both
the JSON and the form-data content-type branches parse through the schema);
body-less methods leave `parsedBody` `undefined` (here `null`). -/
def honoBodyParse (m : Method) (os : Option Schema) (b : Json) :
    Except (List Issue) Json :=
  if m = .POST || m = .PUT || m = .DELETE || m = .PATCH then parsePart os b
  else .ok Json.null

/-- The validation stage of the Express dispatch closure
(`src/src/handler.ts` 261-276), in source order: parse `params`; preprocess
then parse `query` (`preprocessQueryParams` already returns the query
unchanged when no schema is declared, matching the inline conditional); then
the body per `expressBodyParse`.  The first failing `.parse` throws the
`ZodError` that the catch block receives. -/
def expressParseStage (route : RouteModel) (req : RequestModel) :
    Except (List Issue) (Json × Json × Json) :=
  match parsePart route.params req.params with
  | .error es => .error es
  | .ok parsedParams =>
    match parsePart route.query (preprocessQueryParams req.query route.query) with
    | .error es => .error es
    | .ok parsedQuery =>
      match expressBodyParse route.method route.body req.body with
      | .error es => .error es
      | .ok parsedBody => .ok (parsedParams, parsedQuery, parsedBody)

/-- The validation stage of the Hono dispatch closure (`src/unnamed/part_019`
297-324): params and query as in Express, the body per `honoBodyParse`. -/
def honoParseStage (route : RouteModel) (req : RequestModel) :
    Except (List Issue) (Json × Json × Json) :=
  match parsePart route.params req.params with
  | .error es => .error es
  | .ok parsedParams =>
    match parsePart route.query (preprocessQueryParams req.query route.query) with
    | .error es => .error es
    | .ok parsedQuery =>
      match honoBodyParse route.method route.body req.body with
      | .error es => .error es
      | .ok parsedBody => .ok (parsedParams, parsedQuery, parsedBody)

/-- The outcome of one dispatched request: the written status and JSON body,
whether the user handler ran, and — when it ran — the parsed
`(params, query, body)` triple it received. -/
structure DispatchResult where
  status : Nat
  body : Json
  handlerInvoked : Bool
  handlerArgs : Option (Json × Json × Json)
deriving Repr, DecidableEq

/-- A user handler, abstracted by the single `respond(status, payload)` call
it makes for the parsed inputs it receives. -/
def HandlerModel : Type := Json → Json → Json → Nat × Json

/-- The Express per-route closure `expressMiddleware` (`src/src/handler.ts`
254-400): run the validation stage; on a `ZodError` synthesize the 422 (the
handler is never invoked); otherwise invoke the handler with the parsed
inputs and let its `respond` call determine the written response. -/
def expressDispatch (route : RouteModel) (req : RequestModel)
    (handler : HandlerModel) : DispatchResult :=
  match expressParseStage route req with
  | .error issues =>
      let r := zodCatch422 route.responses issues
      ⟨r.1, r.2, false, none⟩
  | .ok (pp, pq, pb) =>
      let hr := handler pp pq pb
      let r := respond route.responses hr.1 hr.2
      ⟨r.1, r.2, true, some (pp, pq, pb)⟩

/-- The literal 500 bodies of the Hono `respond` (`src/unnamed/part_019`
336-341, 368-374): unlike the Express ones they do carry `data: null`. -/
def honoGeneralErrBody (msg : String) : Json :=
  .obj (.cons "data" .null
    (.cons "error" (.arr (errorListJson [⟨"general", "general", msg⟩])) .nil))

/-- The Hono `respond` capability (`src/unnamed/part_019` 332-376): same
envelope construction and validation as the Express one, with Hono-flavoured
500 fallback bodies. -/
def honoRespond (responses : List (Nat × Schema)) (status : Nat)
    (dataForResponse : Json) : Nat × Json :=
  match responsesLookup responses status with
  | none =>
      (500, honoGeneralErrBody
        "Internal server error: Undefined response schema for status.")
  | some sch =>
      let responseBody : Json :=
        if status = 422 then
          .obj (.cons "data" .null (.cons "error" dataForResponse .nil))
        else
          .obj (.cons "data" dataForResponse (.cons "error" .null .nil))
      match zparse sch responseBody with
      | .ok v => (status, v)
      | .error _ =>
          (500, honoGeneralErrBody
            "Internal server error: Constructed response failed validation.")

/-- The Hono per-route closure `honoMiddleware` (`src/unnamed/part_019`
294-460), abstracted like `expressDispatch`. -/
def honoDispatch (route : RouteModel) (req : RequestModel)
    (handler : HandlerModel) : DispatchResult :=
  match honoParseStage route req with
  | .error issues =>
      let r := zodCatch422 route.responses issues
      ⟨r.1, r.2, false, none⟩
  | .ok (pp, pq, pb) =>
      let hr := handler pp pq pb
      let r := honoRespond route.responses hr.1 hr.2
      ⟨r.1, r.2, true, some (pp, pq, pb)⟩

/-- JavaScript truthiness of a JSON value (for `responseBodyJson?.error ||
fallback`). -/
def jsTruthy : Json → Bool
  | .null => false
  | .jbool b => b
  | .num n => n != 0
  | .str s => s != ""
  | .arr _ => true
  | .obj _ => true

/-- The fallback error list the client synthesizes for a 422 without a usable
`error` field (`src/src/router/client.ts` 346): one `general` detail (its
message carries the raw response text, abstracted here). -/
def clientFallback422 : Json :=
  .arr (errorListJson [⟨"general", "general", "HTTP error 422"⟩])

/-- What `callApi` yields for one received response — the tagged payload
passed to the status-keyed handler, or the exception it throws instead. -/
inductive ClientOutcome where
  | thrownUnhandled (status : Nat)
  | noContent
  | errorResult (errs : Json)
  | dataResult (status : Nat) (data : Option Json)
  | thrownTypeError
deriving Repr, DecidableEq

/-- The response-demultiplexing tail of `ApiClient.callApi`
(`src/src/router/client.ts` 296-366): a status missing from
`Object.keys(routeInfo.responses)` throws an unhandled-status error; `204`
yields `{ status: 204, data: undefined }` without touching the body; `422`
extracts `responseBodyJson?.error` with a synthesized fallback when that is
absent or falsy; any other declared status yields
`{ status, data: responseBodyJson.data }` — reading `.data` of an absent
(non-JSON) body throws.  `body` is the parsed JSON body when the response
carried one. -/
def clientHandleResponse (responses : List (Nat × Schema)) (status : Nat)
    (body : Option Json) : ClientOutcome :=
  if !(responses.map (fun p => p.1)).contains status then
    .thrownUnhandled status
  else if status = 204 then
    .noContent
  else if status = 422 then
    let errs :=
      match body with
      | some b =>
          match jsonGet b "error" with
          | some e => if jsTruthy e then e else clientFallback422
          | none => clientFallback422
      | none => clientFallback422
    .errorResult errs
  else
    match body with
    | some b => .dataResult status (jsonGet b "data")
    | none => .thrownTypeError

/-- Is `pat` a prefix of `cs`? -/
def isPrefixList : List Char → List Char → Bool
  | [], _ => true
  | _ :: _, [] => false
  | p :: ps, c :: cs => p = c && isPrefixList ps cs

/-- Find the first occurrence of `pat`: `some (before, after)` splits the
input around the match. -/
def splitAtSub : List Char → List Char → Option (List Char × List Char)
  | cs, pat =>
      if isPrefixList pat cs then some ([], cs.drop pat.length)
      else match cs with
        | [] => none
        | c :: rest =>
            match splitAtSub rest pat with
            | some (b, a) => some (c :: b, a)
            | none => none

/-- JavaScript `String.prototype.replace` with a string pattern: replace only
the **first** occurrence; no occurrence leaves the string unchanged. -/
def replaceFirst (s pat rep : String) : String :=
  match splitAtSub s.data pat.data with
  | some (b, a) => ⟨b ++ rep.data ++ a⟩
  | none => s

/-- The URL path-parameter substitution of `ApiClient.callApi`
(`src/src/router/client.ts` 251-259): for each supplied param `key` (in
order), `urlPath = urlPath.replace(':' + key, String(params[key]))`.  There
is no check that a placeholder was present or that all placeholders were
consumed, and nothing throws. -/
def substPathParams (path : String) (params : List (String × String)) : String :=
  params.foldl (fun acc kv => replaceFirst acc (":" ++ kv.1) kv.2) path

example : substPathParams "/user/:id" [("id", "42")] = "/user/42" := by decide

/-- The observable behaviour of one user middleware for one request: proceed,
write a response without calling `next`, or throw/reject. -/
inductive MwAction where
  | callNext
  | writeResponse (status : Nat) (body : Json)
  | throwErr (msg : String)
deriving Repr, DecidableEq

/-- How a request traverses the registered middleware chain before the
per-route dispatch closure runs. -/
inductive ChainOutcome where
  | handlerReached
  | responseWritten (status : Nat) (body : Json)
  | expressErrorChain (msg : String)
deriving Repr, DecidableEq

/-- The Express middleware chain: each `wrappedMiddleware`
(`src/src/handler.ts` 416-427) awaits the user middleware and, on a throw,
calls `next(error)`.  Modelled from the spec: what `next(error)` then does
belongs to the host Express transport (out of scope, spec §1) — it diverts to
Express's error-handling chain and its default 500; `registerRouteHandlers`
registers only `[...middlewareWrappers, expressMiddleware]`
(`src/src/handler.ts` 430), no error-handling middleware, so no library code
writes an `ErrorDetail` body on that path. -/
def runExpressChain : List MwAction → ChainOutcome
  | [] => .handlerReached
  | .callNext :: rest => runExpressChain rest
  | .writeResponse s b :: _ => .responseWritten s b
  | .throwErr m :: _ => .expressErrorChain m

/-- The Hono middleware chain: each `wrappedMiddleware`
(`src/unnamed/part_019` 469-481) catches a thrown middleware error, logs it,
and `return next()` — the chain **continues** as if the middleware had
succeeded. -/
def runHonoChain : List MwAction → ChainOutcome
  | [] => .handlerReached
  | .callNext :: rest => runHonoChain rest
  | .writeResponse s b :: _ => .responseWritten s b
  | .throwErr _ :: rest => runHonoChain rest

/-- Modelled from the spec: the final wire write of
`res.status(status).json(body)` on the Express/Node transport.  The spec
states "`204` responses are written with no body regardless of the schema's
shape" (§4.3); the suppression happens in the host HTTP stack (Node sends no
payload for a 204 status), not in `src/` — `respond` itself has no 204
branch (`src/src/handler.ts` 336-341). -/
def expressWireWrite (status : Nat) (body : Json) : Nat × Option Json :=
  (status, if status = 204 then none else some body)

/-- The 422 body written directly (unvalidated) by the upload middleware
wrappers on an upload-constraint violation:
`res.status(422).json({ data: null, error: mappedErrors })`
(`src/src/handler.ts` 216-219; `src/unnamed/part_019` 104-107 and the other
upload branches) — unlike the validated 422 paths, the `data` key is
present. -/
def uploadRejectBody (mappedErrors : List ErrorDetail) : Json :=
  .obj (.cons "data" .null
    (.cons "error" (.arr (errorListJson mappedErrors)) .nil))

theorem responsesLookup_updateKey_self (rs : List (Nat × Schema)) (k : Nat)
    (v : Schema) : responsesLookup (updateKey rs k v) k = some v := by
  unfold updateKey
  split
  · rename_i h
    revert h
    induction rs with
    | nil => intro h; simp at h
    | cons p t ih =>
        intro h
        by_cases hp : p.1 = k
        · simp [responsesLookup, hp]
        · have ht : (t.any fun p => p.1 = k) = true := by
            simp only [List.any_cons, Bool.or_eq_true] at h
            rcases h with h | h
            · exact absurd (by simpa using h) hp
            · exact h
          simp only [List.map_cons, responsesLookup, hp, if_false]
          exact ih ht
  · rename_i h
    revert h
    induction rs with
    | nil => intro _; simp [responsesLookup]
    | cons p t ih =>
        intro h
        simp only [List.any_cons, Bool.or_eq_true, not_or] at h
        have hp : p.1 ≠ k := by simpa using h.1
        simp only [List.cons_append, responsesLookup, hp, if_false]
        exact ih (by simpa using h.2)

theorem responsesLookup_contains (rs : List (Nat × Schema)) (st : Nat)
    (sch : Schema) (h : responsesLookup rs st = some sch) :
    ((rs.map fun p => p.1).contains st) = true := by
  induction rs with
  | nil => simp [responsesLookup] at h
  | cons p t ih =>
      simp only [responsesLookup] at h
      by_cases hp : p.1 = st
      · simp [List.contains_cons, hp]
      · simp only [hp, if_false] at h
        simp only [List.map_cons, List.contains_cons, Bool.or_eq_true]
        right
        exact ih h

theorem responsesLookup_mem (rs : List (Nat × Schema)) (st : Nat)
    (sch : Schema) (h : responsesLookup rs st = some sch) : (st, sch) ∈ rs := by
  induction rs with
  | nil => simp [responsesLookup] at h
  | cons p t ih =>
      rcases p with ⟨pk, pv⟩
      by_cases hp : pk = st
      · simp only [responsesLookup, hp, if_true] at h
        injection h with h'
        subst h'
        subst hp
        exact List.mem_cons_self _ _
      · simp only [responsesLookup, hp, if_false] at h
        exact List.mem_cons_of_mem _ (ih h)

theorem zparseErrorDetail_roundtrip (d : ErrorDetail)
    (h : (["body", "query", "param", "general"].contains d.etype) = true) :
    zparseErrorDetail (errorDetailJson d) = .ok (errorDetailJson d) := by
  have hm : d.etype = "body" ∨ d.etype = "query" ∨ d.etype = "param" ∨
      d.etype = "general" := by simpa using h
  simp [zparseErrorDetail, errorDetailJson, objLookup, hm]

theorem zparseDetailList_roundtrip (ds : List ErrorDetail)
    (h : ∀ d ∈ ds, (["body", "query", "param", "general"].contains d.etype) = true) :
    ∀ idx, zparseDetailList (errorListJson ds) idx = ([], errorListJson ds) := by
  induction ds with
  | nil => intro idx; simp [errorListJson, zparseDetailList]
  | cons d t ih =>
      intro idx
      have hd := h d (by simp)
      have ht : ∀ x ∈ t, (["body", "query", "param", "general"].contains x.etype) = true :=
        fun x hx => h x (by simp [hx])
      simp [errorListJson, zparseDetailList, ih ht (idx + 1),
        zparseErrorDetail_roundtrip d hd]

theorem mapIssue_etype_mem (iss : Issue) :
    (["body", "query", "param", "general"].contains
      (mapIssueToErrorDetail iss).etype) = true := by
  unfold mapIssueToErrorDetail
  rcases iss with ⟨path, msg⟩
  rcases path with _ | ⟨p, rest⟩
  · simp
  · simp only [mapIssueToErrorDetail]
    split_ifs <;> simp_all

theorem zparse_envelope_strips_data (ds : List ErrorDetail)
    (h : ∀ d ∈ ds, (["body", "query", "param", "general"].contains d.etype) = true) :
    zparse errorUnifiedResponseSchema
      (.obj (.cons "data" .null
        (.cons "error" (.arr (errorListJson ds)) .nil))) =
      .ok (.obj (.cons "error" (.arr (errorListJson ds)) .nil)) := by
  simp [errorUnifiedResponseSchema, unifiedErrorRequired, unifiedErrorSchema,
    zparse, zparseShape, objLookup, unknownKeys, shapeHasKey, shapeLookup,
    zparseDetailList_roundtrip ds h 0]

theorem zodCatch422_envelope (responses : List (Nat × Schema))
    (issues : List Issue)
    (h : responsesLookup responses 422 = some errorUnifiedResponseSchema) :
    zodCatch422 responses issues =
      (422, .obj (.cons "error"
        (.arr (errorListJson (issues.map mapIssueToErrorDetail))) .nil)) := by
  have hmem : ∀ d ∈ issues.map mapIssueToErrorDetail,
      (["body", "query", "param", "general"].contains d.etype) = true := by
    intro d hd
    rcases List.mem_map.mp hd with ⟨iss, _, rfl⟩
    exact mapIssue_etype_mem iss
  simp only [zodCatch422, h]
  simp [zparse_envelope_strips_data _ hmem]

theorem respond422_strips_data (responses : List (Nat × Schema))
    (ds : List ErrorDetail)
    (h : responsesLookup responses 422 = some errorUnifiedResponseSchema)
    (hd : ∀ d ∈ ds, (["body", "query", "param", "general"].contains d.etype) = true) :
    respond responses 422 (.arr (errorListJson ds)) =
      (422, .obj (.cons "error" (.arr (errorListJson ds)) .nil)) := by
  simp only [respond, h]
  simp [zparse_envelope_strips_data ds hd]

/-- C5: for every input map handed to `CreateResponses`, the stored `422`
schema of the result is the canonical validation-error envelope
`errorUnifiedResponseSchema`; a caller-supplied `422` entry is first wrapped
like any other and then unconditionally overwritten, so no contract can
override it. -/
theorem c5_createResponses_reserves_422 (schemas : List (Nat × SchemaOrMarker)) :
    responsesLookup (CreateResponses schemas) 422 = some errorUnifiedResponseSchema := by
  unfold CreateResponses
  exact responsesLookup_updateKey_self _ 422 _

/-- C1 counterexample: on the `respond(422, errors)` path the body written to
the wire is the 422 schema's **validated** output, and that schema declares
only `error` in strip mode — the transmitted body is `{"error": [...]}` with
no `"data"` key at all, refuting the claimed `{"data": null, "error": [...]}`
wire shape. -/
theorem c1_counterexample :
    (respond (CreateResponses []) 422
      (.arr (errorListJson [⟨"name", "general", "boom"⟩]))).2 =
      .obj (.cons "error"
        (.arr (errorListJson [⟨"name", "general", "boom"⟩])) .nil) ∧
    jsonGet (respond (CreateResponses []) 422
      (.arr (errorListJson [⟨"name", "general", "boom"⟩]))).2 "data" = none := by
  decide

/-- C1 (amended): only the upload-constraint 422 path writes
`{"data": null, "error": [...]}`; the `respond(422, ..)` path and the
input-validation (`ZodError`) path validate the constructed body against the
422 envelope schema, whose strip-mode object declares only `error`, so their
transmitted bodies are `{"error": [...]}` with the `data` key stripped. -/
theorem c1_amended :
    (∀ (responses : List (Nat × Schema)) (ds : List ErrorDetail),
      responsesLookup responses 422 = some errorUnifiedResponseSchema →
      (∀ d ∈ ds, (["body", "query", "param", "general"].contains d.etype) = true) →
      respond responses 422 (.arr (errorListJson ds)) =
        (422, .obj (.cons "error" (.arr (errorListJson ds)) .nil)) ∧
      jsonGet (respond responses 422 (.arr (errorListJson ds))).2 "data" = none) ∧
    (∀ (responses : List (Nat × Schema)) (issues : List Issue),
      responsesLookup responses 422 = some errorUnifiedResponseSchema →
      zodCatch422 responses issues =
        (422, .obj (.cons "error"
          (.arr (errorListJson (issues.map mapIssueToErrorDetail))) .nil)) ∧
      jsonGet (zodCatch422 responses issues).2 "data" = none) ∧
    (∀ ds : List ErrorDetail, jsonGet (uploadRejectBody ds) "data" = some .null) := by
  refine ⟨?_, ?_, ?_⟩
  · intro responses ds h hd
    have hr := respond422_strips_data responses ds h hd
    refine ⟨hr, ?_⟩
    rw [hr]
    simp [jsonGet, objLookup]
  · intro responses issues h
    have hz := zodCatch422_envelope responses issues h
    refine ⟨hz, ?_⟩
    rw [hz]
    simp [jsonGet, objLookup]
  · intro ds
    simp [uploadRejectBody, jsonGet, objLookup]

/-- C1 amended witness: a concrete 422 from `respond` on a
`CreateResponses`-built contract. -/
theorem c1_amended_witness :
    respond (CreateResponses []) 422 (.arr (errorListJson [⟨"f", "body", "m"⟩])) =
      (422, .obj (.cons "error" (.arr (errorListJson [⟨"f", "body", "m"⟩])) .nil)) :=
  ((c1_amended.1 (CreateResponses []) [⟨"f", "body", "m"⟩]
    (by decide) (by decide)).1)

/-- C7 counterexample: building the URL for `GET /user/:id` with a params
object that lacks `id` neither substitutes nor fails — the literal `:id`
stays in the produced URL path, refuting the claim that a missing referenced
param makes the operation throw. -/
theorem c7_counterexample :
    substPathParams "/user/:id" [("other", "1")] = "/user/:id" := by decide

/-- C7 (amended): the client's URL-building step replaces, for each supplied
param in object order, only the **first** occurrence of `:name`; placeholders
whose param is missing are left verbatim in the URL and no error is ever
raised. -/
theorem c7_amended :
    (∀ (path : String) (params : List (String × String)),
      (∀ kv ∈ params, splitAtSub path.data (":" ++ kv.1).data = none) →
      substPathParams path params = path) ∧
    substPathParams "/user/:id" [("id", "42")] = "/user/42" ∧
    substPathParams "/a/:id/b/:id" [("id", "7")] = "/a/7/b/:id" := by
  refine ⟨?_, by decide, by decide⟩
  intro path params
  induction params with
  | nil => intro _; rfl
  | cons kv t ih =>
      intro h
      have hkv := h kv (by simp)
      have hkv2 : splitAtSub path.data (':' :: kv.1.data) = none := by
        simpa using hkv
      have hstep : replaceFirst path (":" ++ kv.1) kv.2 = path := by
        simp [replaceFirst, hkv2]
      simp only [substPathParams, List.foldl_cons, hstep]
      exact ih (fun x hx => h x (by simp [hx]))

/-- C7 amended witness: a param that matches no placeholder leaves the path
unchanged. -/
theorem c7_amended_witness :
    substPathParams "/user/:id" [("x", "1")] = "/user/:id" :=
  c7_amended.1 "/user/:id" [("x", "1")] (by decide)

/-- C8 counterexample: a middleware that throws does **not** terminate the
request with a library-written 500 `ErrorDetail` body: the Hono wrapper
catches the error and calls `next()`, so the chain continues and the handler
runs as if the middleware had succeeded; the Express wrapper forwards the
error to the host framework's error chain instead of writing an `ErrorDetail`
response. -/
theorem c8_counterexample :
    runHonoChain [.throwErr "boom"] = .handlerReached ∧
    runExpressChain [.throwErr "boom"] = .expressErrorChain "boom" := by decide

/-- C8 (amended): a thrown middleware exception never escapes, but its
handling differs per transport and never produces the claimed 500
`ErrorDetail` body from library code: after any prefix of pass-through
middlewares, Express diverts the request to the host framework's error chain
(skipping the remaining middlewares and the handler), while Hono continues
the chain exactly as if the throwing middleware had called `next()`. -/
theorem c8_amended (pre : List MwAction) (msg : String) (rest : List MwAction)
    (h : ∀ m ∈ pre, m = MwAction.callNext) :
    runExpressChain (pre ++ .throwErr msg :: rest) = .expressErrorChain msg ∧
    runHonoChain (pre ++ .throwErr msg :: rest) = runHonoChain rest := by
  induction pre with
  | nil => simp [runExpressChain, runHonoChain]
  | cons m t ih =>
      have hm := h m (by simp)
      subst hm
      simp only [List.cons_append, runExpressChain, runHonoChain]
      exact ih (fun x hx => h x (by simp [hx]))

/-- C8 amended witness: one pass-through middleware followed by a throwing
one. -/
theorem c8_amended_witness :
    runExpressChain ([.callNext] ++ .throwErr "x" :: [.callNext]) =
      .expressErrorChain "x" ∧
    runHonoChain ([.callNext] ++ .throwErr "x" :: [.callNext]) =
      runHonoChain [.callNext] :=
  c8_amended [.callNext] "x" [.callNext] (by decide)

theorem expressDispatch_bodyFail (route : RouteModel) (req : RequestModel)
    (handler : HandlerModel) (bs : Schema) (issues : List Issue) (pp pq : Json)
    (hm : route.method = .POST ∨ route.method = .PUT)
    (hb : route.body = some bs)
    (hp : parsePart route.params req.params = .ok pp)
    (hq : parsePart route.query (preprocessQueryParams req.query route.query) = .ok pq)
    (hbf : zparse bs req.body = .error issues) :
    expressDispatch route req handler =
      ⟨(zodCatch422 route.responses issues).1,
       (zodCatch422 route.responses issues).2, false, none⟩ := by
  have hmb : (route.method = Method.POST || route.method = Method.PUT) = true := by
    rcases hm with h | h <;> simp [h]
  have hstage : expressParseStage route req = .error issues := by
    unfold expressParseStage
    rw [hp, hq]
    unfold expressBodyParse
    rw [hmb, hb]
    simp only [if_true, parsePart, hbf]
  simp [expressDispatch, hstage]

theorem honoDispatch_bodyFail (route : RouteModel) (req : RequestModel)
    (handler : HandlerModel) (bs : Schema) (issues : List Issue) (pp pq : Json)
    (hm : route.method = .POST ∨ route.method = .PUT ∨
          route.method = .DELETE ∨ route.method = .PATCH)
    (hb : route.body = some bs)
    (hp : parsePart route.params req.params = .ok pp)
    (hq : parsePart route.query (preprocessQueryParams req.query route.query) = .ok pq)
    (hbf : zparse bs req.body = .error issues) :
    honoDispatch route req handler =
      ⟨(zodCatch422 route.responses issues).1,
       (zodCatch422 route.responses issues).2, false, none⟩ := by
  have hmb : (route.method = Method.POST || route.method = Method.PUT ||
      route.method = Method.DELETE || route.method = Method.PATCH) = true := by
    rcases hm with h | h | h | h <;> simp [h]
  have hstage : honoParseStage route req = .error issues := by
    unfold honoParseStage
    rw [hp, hq]
    unfold honoBodyParse
    rw [hmb, hb]
    simp only [if_true, parsePart, hbf]
  simp [honoDispatch, hstage]

/-- C2 counterexample: a `DELETE` route with a declared (strict) body schema,
receiving a body that violates it: the Express dispatch closure parses the
body only for `POST`/`PUT`, so the request is **not** answered with 422 — the
handler is invoked, and it receives the raw unvalidated body. -/
theorem c2_counterexample :
    (expressDispatch
      ⟨.DELETE, none, none, some (.objS (.cons "name" .strS .nil) true),
        CreateResponses []⟩
      ⟨.obj .nil, .obj .nil, .obj (.cons "name" (.num 1) .nil)⟩
      (fun _ _ pb => (201, pb))).handlerInvoked = true ∧
    (expressDispatch
      ⟨.DELETE, none, none, some (.objS (.cons "name" .strS .nil) true),
        CreateResponses []⟩
      ⟨.obj .nil, .obj .nil, .obj (.cons "name" (.num 1) .nil)⟩
      (fun _ _ pb => (201, pb))).handlerArgs =
      some (.obj .nil, .obj .nil, .obj (.cons "name" (.num 1) .nil)) := by
  decide

/-- C2 (amended): a body-schema-violating request is answered with the
synthesized 422 (and the handler never invoked) for `POST`/`PUT` routes in
the Express pipeline, and for `POST`/`PUT`/`DELETE`/`PATCH` routes in the
Hono pipeline; the Express pipeline passes `DELETE`/`PATCH` bodies through
unvalidated. -/
theorem c2_amended :
    (∀ (route : RouteModel) (req : RequestModel) (handler : HandlerModel)
       (bs : Schema) (issues : List Issue) (pp pq : Json),
      route.method = .POST ∨ route.method = .PUT →
      route.body = some bs →
      responsesLookup route.responses 422 = some errorUnifiedResponseSchema →
      parsePart route.params req.params = .ok pp →
      parsePart route.query (preprocessQueryParams req.query route.query) = .ok pq →
      zparse bs req.body = .error issues →
      expressDispatch route req handler =
        ⟨422, .obj (.cons "error"
          (.arr (errorListJson (issues.map mapIssueToErrorDetail))) .nil),
         false, none⟩) ∧
    (∀ (route : RouteModel) (req : RequestModel) (handler : HandlerModel)
       (bs : Schema) (issues : List Issue) (pp pq : Json),
      route.method = .POST ∨ route.method = .PUT ∨
        route.method = .DELETE ∨ route.method = .PATCH →
      route.body = some bs →
      responsesLookup route.responses 422 = some errorUnifiedResponseSchema →
      parsePart route.params req.params = .ok pp →
      parsePart route.query (preprocessQueryParams req.query route.query) = .ok pq →
      zparse bs req.body = .error issues →
      honoDispatch route req handler =
        ⟨422, .obj (.cons "error"
          (.arr (errorListJson (issues.map mapIssueToErrorDetail))) .nil),
         false, none⟩) := by
  constructor
  · intro route req handler bs issues pp pq hm hb h422 hp hq hbf
    rw [expressDispatch_bodyFail route req handler bs issues pp pq hm hb hp hq hbf,
      zodCatch422_envelope route.responses issues h422]
  · intro route req handler bs issues pp pq hm hb h422 hp hq hbf
    rw [honoDispatch_bodyFail route req handler bs issues pp pq hm hb hp hq hbf,
      zodCatch422_envelope route.responses issues h422]

/-- C2 amended witness: a concrete `POST` (Express) and `DELETE` (Hono)
request with an invalid body each yields the synthesized 422 with the handler
not invoked. -/
theorem c2_amended_witness :
    expressDispatch
      ⟨.POST, none, none, some (.objS (.cons "name" .strS .nil) true),
        CreateResponses []⟩
      ⟨.obj .nil, .obj .nil, .obj (.cons "name" (.num 1) .nil)⟩
      (fun _ _ pb => (201, pb)) =
      ⟨422, .obj (.cons "error" (.arr (errorListJson
        ((prefixIssues "name" [⟨[], "Invalid input: expected string"⟩]).map
          mapIssueToErrorDetail))) .nil), false, none⟩ ∧
    honoDispatch
      ⟨.DELETE, none, none, some (.objS (.cons "name" .strS .nil) true),
        CreateResponses []⟩
      ⟨.obj .nil, .obj .nil, .obj (.cons "name" (.num 1) .nil)⟩
      (fun _ _ pb => (201, pb)) =
      ⟨422, .obj (.cons "error" (.arr (errorListJson
        ((prefixIssues "name" [⟨[], "Invalid input: expected string"⟩]).map
          mapIssueToErrorDetail))) .nil), false, none⟩ :=
  ⟨c2_amended.1
      ⟨.POST, none, none, some (.objS (.cons "name" .strS .nil) true),
        CreateResponses []⟩
      ⟨.obj .nil, .obj .nil, .obj (.cons "name" (.num 1) .nil)⟩
      (fun _ _ pb => (201, pb))
      (.objS (.cons "name" .strS .nil) true)
      (prefixIssues "name" [⟨[], "Invalid input: expected string"⟩])
      (.obj .nil) (.obj .nil)
      (Or.inl rfl) rfl (by decide) (by decide) (by decide) (by decide),
   c2_amended.2
      ⟨.DELETE, none, none, some (.objS (.cons "name" .strS .nil) true),
        CreateResponses []⟩
      ⟨.obj .nil, .obj .nil, .obj (.cons "name" (.num 1) .nil)⟩
      (fun _ _ pb => (201, pb))
      (.objS (.cons "name" .strS .nil) true)
      (prefixIssues "name" [⟨[], "Invalid input: expected string"⟩])
      (.obj .nil) (.obj .nil)
      (Or.inr (Or.inr (Or.inl rfl))) rfl (by decide) (by decide) (by decide)
      (by decide)⟩

theorem shapeHasKey_cons (k : String) (sch : Schema) (rest : Shape)
    (key : String) (h : shapeHasKey rest key = true) :
    shapeHasKey (.cons k sch rest) key = true := by
  by_cases hk : k = key
  · simp [shapeHasKey, shapeLookup, hk]
  · simp only [shapeHasKey, shapeLookup, hk, if_false]
    simpa [shapeHasKey] using h

theorem zparseShape_issue_heads : ∀ (sh : Shape) (fs : JsonObj),
    ∀ iss ∈ (zparseShape sh fs).1,
      ∃ k, iss.path.head? = some k ∧ shapeHasKey sh k = true
  | .nil, fs => by
      intro iss h
      simp [zparseShape] at h
  | .cons k sch rest, fs => by
      intro iss h
      have ih := zparseShape_issue_heads rest fs
      have hself : shapeHasKey (Shape.cons k sch rest) k = true := by
        simp [shapeHasKey, shapeLookup]
      simp only [zparseShape] at h
      rcases hol : objLookup fs k with _ | v <;> simp only [hol] at h
      · rcases hab : absentBehavior sch with _ | d | _ <;> simp only [hab] at h
        · rcases ih iss h with ⟨k', hk', hhas⟩
          exact ⟨k', hk', shapeHasKey_cons k sch rest k' hhas⟩
        · rcases ih iss h with ⟨k', hk', hhas⟩
          exact ⟨k', hk', shapeHasKey_cons k sch rest k' hhas⟩
        · rcases List.mem_cons.mp h with rfl | hmem
          · exact ⟨k, rfl, hself⟩
          · rcases ih iss hmem with ⟨k', hk', hhas⟩
            exact ⟨k', hk', shapeHasKey_cons k sch rest k' hhas⟩
      · rcases hz : zparse sch v with es | w <;> simp only [hz] at h
        · rcases List.mem_append.mp h with hmem | hmem
          · rcases List.mem_map.mp hmem with ⟨i, _, rfl⟩
            exact ⟨k, rfl, hself⟩
          · rcases ih iss hmem with ⟨k', hk', hhas⟩
            exact ⟨k', hk', shapeHasKey_cons k sch rest k' hhas⟩
        · rcases ih iss h with ⟨k', hk', hhas⟩
          exact ⟨k', hk', shapeHasKey_cons k sch rest k' hhas⟩

theorem zparse_obj_issue_heads (sh : Shape) (b : Bool) (j : Json)
    (issues : List Issue) (h : zparse (.objS sh b) j = .error issues) :
    ∀ iss ∈ issues,
      iss.path = [] ∨ ∃ k, iss.path.head? = some k ∧ shapeHasKey sh k = true := by
  intro iss hmem
  cases j with
  | obj fs =>
      simp only [zparse] at h
      by_cases hL : ((zparseShape sh fs).1 ++
          (if b && !(unknownKeys fs sh).isEmpty then
            [(⟨[], "Unrecognized key(s) in object: " ++
              joinComma (unknownKeys fs sh)⟩ : Issue)] else [])).isEmpty = true
      · rw [if_pos hL] at h
        cases h
      · rw [if_neg (by simpa using hL)] at h
        injection h with h'
        subst h'
        rcases List.mem_append.mp hmem with hm | hm
        · rcases zparseShape_issue_heads sh fs iss hm with ⟨k, hk, hhas⟩
          exact Or.inr ⟨k, hk, hhas⟩
        · left
          cases hsplit : (b && !(unknownKeys fs sh).isEmpty) <;>
            rw [hsplit] at hm
          · simp at hm
          · simp at hm
            rw [hm]
  | null =>
      simp only [zparse] at h
      injection h with h'
      subst h'
      simp at hmem
      subst hmem
      left
      rfl
  | jbool bb =>
      simp only [zparse] at h
      injection h with h'
      subst h'
      simp at hmem
      subst hmem
      left
      rfl
  | num n =>
      simp only [zparse] at h
      injection h with h'
      subst h'
      simp at hmem
      subst hmem
      left
      rfl
  | str s =>
      simp only [zparse] at h
      injection h with h'
      subst h'
      simp at hmem
      subst hmem
      left
      rfl
  | arr xs =>
      simp only [zparse] at h
      injection h with h'
      subst h'
      simp at hmem
      subst hmem
      left
      rfl

theorem mapIssue_etype_general (iss : Issue)
    (h : iss.path = [] ∨ ∃ k, iss.path.head? = some k ∧
      k ≠ "params" ∧ k ≠ "query" ∧ k ≠ "body") :
    (mapIssueToErrorDetail iss).etype = "general" := by
  rcases iss with ⟨path, msg⟩
  rcases h with h | ⟨k, hk, h1, h2, h3⟩
  · simp only at h
    subst h
    rfl
  · rcases path with _ | ⟨p, rest⟩
    · simp at hk
    · have hp : p = k := by simpa using hk
      subst hp
      simp [mapIssueToErrorDetail, h1, h2, h3]

/-- C3 counterexample: a `POST` route whose body schema declares `name`,
receiving `{ "name": 1 }`: the validation failure's issue path is `["name"]`
(the body is parsed bare, so the path starts at the failing field, not at
`body`), and the synthesized 422 carries an `ErrorDetail` of type
`"general"` — not `"body"` as the claim states. -/
theorem c3_counterexample :
    expressDispatch
      ⟨.POST, none, none, some (.objS (.cons "name" .strS .nil) true),
        CreateResponses []⟩
      ⟨.obj .nil, .obj .nil, .obj (.cons "name" (.num 1) .nil)⟩
      (fun _ _ _ => (201, .null)) =
      ⟨422, .obj (.cons "error" (.arr (errorListJson
        [⟨"name", "general", "Invalid input: expected string"⟩])) .nil),
       false, none⟩ := by
  decide

/-- C3 (amended): the `ErrorDetail` type is derived from the **first segment
of the issue path**, which — because `params`, `query` and `body` are each
parsed as bare objects — is the failing field's own name (or empty for an
object-level issue such as unrecognized keys).  It equals `'param'`,
`'query'` or `'body'` only when the field is literally named `'params'`,
`'query'` or `'body'`; for any body schema without such field names, every
detail of the synthesized 422 has type `'general'`. -/
theorem c3_amended (route : RouteModel) (req : RequestModel)
    (handler : HandlerModel) (sh : Shape) (b : Bool) (issues : List Issue)
    (pp pq : Json)
    (hm : route.method = .POST ∨ route.method = .PUT)
    (hb : route.body = some (.objS sh b))
    (h422 : responsesLookup route.responses 422 = some errorUnifiedResponseSchema)
    (hp : parsePart route.params req.params = .ok pp)
    (hq : parsePart route.query (preprocessQueryParams req.query route.query) = .ok pq)
    (hbf : zparse (.objS sh b) req.body = .error issues)
    (hnames : shapeHasKey sh "params" = false ∧ shapeHasKey sh "query" = false ∧
      shapeHasKey sh "body" = false) :
    expressDispatch route req handler =
      ⟨422, .obj (.cons "error"
        (.arr (errorListJson (issues.map mapIssueToErrorDetail))) .nil),
       false, none⟩ ∧
    ∀ d ∈ issues.map mapIssueToErrorDetail, d.etype = "general" := by
  constructor
  · have hd := expressDispatch_bodyFail route req handler (.objS sh b) issues
      pp pq hm hb hp hq hbf
    rw [hd, zodCatch422_envelope route.responses issues h422]
  · intro d hd
    rcases List.mem_map.mp hd with ⟨iss, hiss, rfl⟩
    apply mapIssue_etype_general
    rcases zparse_obj_issue_heads sh b req.body issues hbf iss hiss with
      hnil | ⟨k, hk, hhas⟩
    · exact Or.inl hnil
    · right
      refine ⟨k, hk, ?_, ?_, ?_⟩
      · intro e
        rw [e, hnames.1] at hhas
        cases hhas
      · intro e
        rw [e, hnames.2.1] at hhas
        cases hhas
      · intro e
        rw [e, hnames.2.2] at hhas
        cases hhas

/-- C3 amended witness: the concrete invalid-body request yields a 422 whose
single detail has type `general`. -/
theorem c3_amended_witness :
    expressDispatch
      ⟨.POST, none, none, some (.objS (.cons "name" .strS .nil) true),
        CreateResponses []⟩
      ⟨.obj .nil, .obj .nil, .obj (.cons "name" (.num 1) .nil)⟩
      (fun _ _ _ => (201, .null)) =
      ⟨422, .obj (.cons "error" (.arr (errorListJson
        ((prefixIssues "name" [⟨[], "Invalid input: expected string"⟩]).map
          mapIssueToErrorDetail))) .nil), false, none⟩ ∧
    ∀ d ∈ (prefixIssues "name"
        [⟨[], "Invalid input: expected string"⟩]).map mapIssueToErrorDetail,
      d.etype = "general" :=
  c3_amended
    ⟨.POST, none, none, some (.objS (.cons "name" .strS .nil) true),
      CreateResponses []⟩
    ⟨.obj .nil, .obj .nil, .obj (.cons "name" (.num 1) .nil)⟩
    (fun _ _ _ => (201, .null))
    (.cons "name" .strS .nil) true
    (prefixIssues "name" [⟨[], "Invalid input: expected string"⟩])
    (.obj .nil) (.obj .nil)
    (Or.inl rfl) rfl (by decide) (by decide) (by decide) (by decide)
    (by decide)

/-- C4 counterexample: for a status declared via `CustomResponse`
(`TsTypeMarker`), the stored envelope is `z.object({ data: z.any()
}).strict()`, and `respond` always validates `{ data: payload, error: null }`
against it — the strict envelope rejects the ever-present `error` key, so
`respond(200, payload)` yields a 500, never the claimed `{"data": payload}`
wire body. -/
theorem c4_counterexample :
    respond (CreateResponses [(200, .marker)]) 200 (.num 1) =
      (500, generalErrBody
        "Internal server error: Constructed response failed validation.") := by
  decide

/-- C4 (amended): for a `(status, schema)` pair declared as a Zod schema, if
the strict schema parses the payload to itself (no unknown keys at any level,
no transforming wrappers), the wire body is `{"data": payload}` and the Call
Client yields exactly that payload back (204 excepted, which carries no
data); for a status declared via `CustomResponse`, `respond` always fails its
own envelope validation — the strict `{data}` wrapper rejects the `error:
null` key `respond` adds — and emits a 500 instead. -/
theorem c4_amended :
    (∀ (responses : List (Nat × Schema)) (raw : Schema) (st : Nat)
       (payload : Json),
      st ≠ 422 →
      responsesLookup responses st =
        some (createSuccessUnifiedResponseSchema (makeSchemaStrict raw)) →
      zparse (makeSchemaStrict raw) payload = .ok payload →
      respond responses st payload = (st, .obj (.cons "data" payload .nil)) ∧
      (st ≠ 204 →
        clientHandleResponse responses st
          (some (.obj (.cons "data" payload .nil))) =
          .dataResult st (some payload))) ∧
    (∀ (responses : List (Nat × Schema)) (st : Nat) (payload : Json),
      st ≠ 422 →
      responsesLookup responses st = some (wrapResponseEntry .marker) →
      respond responses st payload =
        (500, generalErrBody
          "Internal server error: Constructed response failed validation.")) := by
  constructor
  · intro responses raw st payload hs hl hparse
    have henv : zparse (createSuccessUnifiedResponseSchema (makeSchemaStrict raw))
        (.obj (.cons "data" payload (.cons "error" .null .nil))) =
        .ok (.obj (.cons "data" payload .nil)) := by
      simp [createSuccessUnifiedResponseSchema, zparse, zparseShape, objLookup,
        unknownKeys, shapeHasKey, shapeLookup, hparse]
    constructor
    · simp [respond, hl, hs, henv]
    · intro h204
      simp [clientHandleResponse, hs, h204, jsonGet, objLookup]
      exact ⟨_, responsesLookup_mem _ _ _ hl⟩
  · intro responses st payload hs hl
    have hfail : zparse (wrapResponseEntry .marker)
        (.obj (.cons "data" payload (.cons "error" .null .nil))) =
        .error [⟨[], "Unrecognized key(s) in object: error"⟩] := by
      simp [wrapResponseEntry, zparse, zparseShape, objLookup, unknownKeys,
        shapeHasKey, shapeLookup, joinComma]
    simp [respond, hl, hs, hfail]

/-- C4 amended witness: a Zod-declared 200 round-trips a concrete payload;
a marker-declared 201 always 500s. -/
theorem c4_amended_witness :
    (respond (CreateResponses [(200, .zodS (.objS (.cons "ok" .boolS .nil) false))])
        200 (.obj (.cons "ok" (.jbool true) .nil)) =
      (200, .obj (.cons "data" (.obj (.cons "ok" (.jbool true) .nil)) .nil)) ∧
    (200 ≠ 204 →
      clientHandleResponse
        (CreateResponses [(200, .zodS (.objS (.cons "ok" .boolS .nil) false))])
        200 (some (.obj (.cons "data" (.obj (.cons "ok" (.jbool true) .nil)) .nil))) =
        .dataResult 200 (some (.obj (.cons "ok" (.jbool true) .nil))))) ∧
    respond (CreateResponses [(201, .marker)]) 201 (.num 7) =
      (500, generalErrBody
        "Internal server error: Constructed response failed validation.") :=
  ⟨c4_amended.1 (CreateResponses [(200, .zodS (.objS (.cons "ok" .boolS .nil) false))])
      (.objS (.cons "ok" .boolS .nil) false) 200
      (.obj (.cons "ok" (.jbool true) .nil))
      (by decide) (by decide) (by decide),
   c4_amended.2 (CreateResponses [(201, .marker)]) 201 (.num 7)
      (by decide) (by decide)⟩

/-- C6: for a route declaring a 204 response, `respond(204, payload)` (with a
payload accepted by the declared schema, whatever its shape) writes status
204, the host transport transmits no body for a 204 (spec §4.3; `respond`
itself has no 204 branch), and the Call Client, on receiving a 204, yields
the `{ status: 204, data: undefined }` result without reading a body. -/
theorem c6_204_no_body (responses : List (Nat × Schema)) (sch : Schema)
    (payload v : Json)
    (hl : responsesLookup responses 204 = some sch)
    (hv : zparse sch (.obj (.cons "data" payload (.cons "error" .null .nil))) =
      .ok v) :
    respond responses 204 payload = (204, v) ∧
    expressWireWrite 204 v = (204, none) ∧
    clientHandleResponse responses 204 none = .noContent := by
  refine ⟨by simp [respond, hl, hv], by simp [expressWireWrite], ?_⟩
  simp [clientHandleResponse]
  exact ⟨sch, responsesLookup_mem _ _ _ hl⟩

/-- C6 witness: a concrete 204 route. -/
theorem c6_204_no_body_witness :
    respond (CreateResponses [(204, .zodS .anyS)]) 204 .null =
      (204, .obj (.cons "data" .null .nil)) ∧
    expressWireWrite 204 (.obj (.cons "data" .null .nil)) = (204, none) ∧
    clientHandleResponse (CreateResponses [(204, .zodS .anyS)]) 204 none =
      .noContent :=
  c6_204_no_body (CreateResponses [(204, .zodS .anyS)])
    (createSuccessUnifiedResponseSchema (makeSchemaStrict .anyS)) .null
    (.obj (.cons "data" .null .nil)) (by decide) (by decide)

theorem zparse_error_ne_nil : ∀ (s : Schema) (j : Json) (es : List Issue),
    zparse s j = .error es → es ≠ []
  | .strS, j, es => by
      cases j <;> simp [zparse] <;> rintro rfl <;> simp
  | .numS, j, es => by
      cases j <;> simp [zparse] <;> rintro rfl <;> simp
  | .boolS, j, es => by
      cases j <;> simp [zparse] <;> rintro rfl <;> simp
  | .anyS, j, es => by simp [zparse]
  | .enumS vs, j, es => by
      cases j with
      | str s =>
          simp only [zparse]
          split_ifs
          · intro h
            cases h
          · intro h
            injection h with h'
            subst h'
            simp
      | null =>
          intro h
          simp only [zparse] at h
          injection h with h'
          subst h'
          simp
      | jbool bb =>
          intro h
          simp only [zparse] at h
          injection h with h'
          subst h'
          simp
      | num n =>
          intro h
          simp only [zparse] at h
          injection h with h'
          subst h'
          simp
      | arr xs =>
          intro h
          simp only [zparse] at h
          injection h with h'
          subst h'
          simp
      | obj fs =>
          intro h
          simp only [zparse] at h
          injection h with h'
          subst h'
          simp
  | .objS sh b, j, es => by
      cases j with
      | obj fs =>
          intro h
          simp only [zparse] at h
          by_cases hL : ((zparseShape sh fs).1 ++
              (if b && !(unknownKeys fs sh).isEmpty then
                [(⟨[], "Unrecognized key(s) in object: " ++
                  joinComma (unknownKeys fs sh)⟩ : Issue)] else [])).isEmpty = true
          · rw [if_pos hL] at h
            cases h
          · rw [if_neg (by simpa using hL)] at h
            injection h with h'
            subst h'
            simpa using hL
      | null => simp [zparse]; rintro rfl; simp
      | jbool bb => simp [zparse]; rintro rfl; simp
      | num n => simp [zparse]; rintro rfl; simp
      | str s => simp [zparse]; rintro rfl; simp
      | arr xs => simp [zparse]; rintro rfl; simp
  | .arrDetailS, j, es => by
      cases j with
      | arr xs =>
          intro h
          simp only [zparse] at h
          by_cases hL : (zparseDetailList xs 0).1.isEmpty = true
          · rw [if_pos hL] at h
            cases h
          · rw [if_neg (by simpa using hL)] at h
            injection h with h'
            subst h'
            simpa using hL
      | null => simp [zparse]; rintro rfl; simp
      | jbool bb => simp [zparse]; rintro rfl; simp
      | num n => simp [zparse]; rintro rfl; simp
      | str s => simp [zparse]; rintro rfl; simp
      | obj fs => simp [zparse]; rintro rfl; simp
  | .optS inner, j, es => by
      intro h
      exact zparse_error_ne_nil inner j es (by simpa [zparse] using h)
  | .defaultS inner d, j, es => by
      intro h
      exact zparse_error_ne_nil inner j es (by simpa [zparse] using h)
  | .nullableS inner, j, es => by
      cases j with
      | null => simp [zparse]
      | jbool bb =>
          intro h
          exact zparse_error_ne_nil inner _ es (by simpa [zparse] using h)
      | num n =>
          intro h
          exact zparse_error_ne_nil inner _ es (by simpa [zparse] using h)
      | str s =>
          intro h
          exact zparse_error_ne_nil inner _ es (by simpa [zparse] using h)
      | arr xs =>
          intro h
          exact zparse_error_ne_nil inner _ es (by simpa [zparse] using h)
      | obj fs =>
          intro h
          exact zparse_error_ne_nil inner _ es (by simpa [zparse] using h)
  | .refineNotNull inner, j, es => by
      intro h
      simp only [zparse] at h
      rcases hz : zparse inner j with es2 | w <;> simp only [hz] at h
      · injection h with h'
        rw [← h']
        exact zparse_error_ne_nil inner j es2 hz
      · by_cases hw : w = Json.null
        · rw [if_pos hw] at h
          injection h with h'
          subst h'
          simp
        · rw [if_neg hw] at h
          cases h

theorem preprocessObjFields_lookup : ∀ (fs : JsonObj) (sh : Shape) (k : String)
    (v : Json), objLookup fs k = some v →
    objLookup (preprocessObjFields fs sh) k =
      some (match shapeLookup sh k with
            | some fsch => coerceQueryValue fsch v
            | none => v)
  | .nil, _, _, _ => by
      intro h
      simp [objLookup] at h
  | .cons k' v' t, sh, k, v => by
      intro h
      by_cases hk : k' = k
      · subst hk
        simp only [objLookup, if_pos rfl] at h
        injection h with h'
        subst h'
        rcases hs : shapeLookup sh k' with _ | fsch <;>
          simp [preprocessObjFields, hs, objLookup]
      · simp only [objLookup, if_neg hk] at h
        have ih := preprocessObjFields_lookup t sh k v h
        rcases hs : shapeLookup sh k' with _ | fsch <;>
          simp [preprocessObjFields, hs, objLookup, hk, ih]

theorem zparse_unwrap_num : ∀ (fsch : Schema),
    unwrapOptDefault fsch = .numS → ∀ n : Int, zparse fsch (.num n) = .ok (.num n)
  | .numS, _, n => rfl
  | .optS inner, h, n =>
      zparse_unwrap_num inner (by simpa [unwrapOptDefault] using h) n
  | .defaultS inner d, h, n =>
      zparse_unwrap_num inner (by simpa [unwrapOptDefault] using h) n
  | .strS, h, _ => by simp [unwrapOptDefault] at h
  | .boolS, h, _ => by simp [unwrapOptDefault] at h
  | .anyS, h, _ => by simp [unwrapOptDefault] at h
  | .enumS vs, h, _ => by simp [unwrapOptDefault] at h
  | .objS sh b, h, _ => by simp [unwrapOptDefault] at h
  | .arrDetailS, h, _ => by simp [unwrapOptDefault] at h
  | .nullableS inner, h, _ => by simp [unwrapOptDefault] at h
  | .refineNotNull inner, h, _ => by simp [unwrapOptDefault] at h

theorem zparse_unwrap_bool : ∀ (fsch : Schema),
    unwrapOptDefault fsch = .boolS → ∀ b : Bool, zparse fsch (.jbool b) = .ok (.jbool b)
  | .boolS, _, b => rfl
  | .optS inner, h, b =>
      zparse_unwrap_bool inner (by simpa [unwrapOptDefault] using h) b
  | .defaultS inner d, h, b =>
      zparse_unwrap_bool inner (by simpa [unwrapOptDefault] using h) b
  | .strS, h, _ => by simp [unwrapOptDefault] at h
  | .numS, h, _ => by simp [unwrapOptDefault] at h
  | .anyS, h, _ => by simp [unwrapOptDefault] at h
  | .enumS vs, h, _ => by simp [unwrapOptDefault] at h
  | .objS sh b, h, _ => by simp [unwrapOptDefault] at h
  | .arrDetailS, h, _ => by simp [unwrapOptDefault] at h
  | .nullableS inner, h, _ => by simp [unwrapOptDefault] at h
  | .refineNotNull inner, h, _ => by simp [unwrapOptDefault] at h

theorem zparseShape_lookup_ok : ∀ (sh : Shape) (fs : JsonObj) (k : String)
    (fsch : Schema) (v : Json),
    (zparseShape sh fs).1 = [] →
    shapeLookup sh k = some fsch →
    objLookup fs k = some v →
    ∃ w, zparse fsch v = .ok w ∧ objLookup (zparseShape sh fs).2 k = some w
  | .nil, fs, k, fsch, v => by
      intro _ hkl _
      simp [shapeLookup] at hkl
  | .cons k' sch rest, fs, k, fsch, v => by
      intro hemp hkl hol
      by_cases hk : k' = k
      · subst hk
        simp only [shapeLookup, if_pos rfl] at hkl
        injection hkl with hkl'
        subst hkl'
        simp only [zparseShape, hol] at hemp ⊢
        rcases hz : zparse sch v with es | w <;> simp only [hz] at hemp ⊢
        · exfalso
          rcases List.append_eq_nil.mp hemp with ⟨hpre, _⟩
          exact zparse_error_ne_nil sch v es hz (by simpa [prefixIssues] using hpre)
        · exact ⟨w, rfl, by simp [objLookup]⟩
      · simp only [shapeLookup, if_neg hk] at hkl
        simp only [zparseShape] at hemp ⊢
        rcases hol' : objLookup fs k' with _ | v' <;> simp only [hol'] at hemp ⊢
        · rcases hab : absentBehavior sch with _ | d | _ <;>
            simp only [hab] at hemp ⊢
          · exact zparseShape_lookup_ok rest fs k fsch v hemp hkl hol
          · rcases zparseShape_lookup_ok rest fs k fsch v hemp hkl hol with
              ⟨w, hw, hlook⟩
            exact ⟨w, hw, by simp [objLookup, hk, hlook]⟩
          · exact absurd hemp (by simp)
        · rcases hz : zparse sch v' with es | w' <;> simp only [hz] at hemp ⊢
          · exfalso
            rcases List.append_eq_nil.mp hemp with ⟨hpre, _⟩
            exact zparse_error_ne_nil sch v' es hz
              (by simpa [prefixIssues] using hpre)
          · rcases zparseShape_lookup_ok rest fs k fsch v hemp hkl hol with
              ⟨w, hw, hlook⟩
            exact ⟨w, hw, by simp [objLookup, hk, hlook]⟩

theorem expressDispatch_query_value (route : RouteModel) (req : RequestModel)
    (handler : HandlerModel) (sh : Shape) (b : Bool) (fsJson : JsonObj)
    (k : String) (fsch : Schema) (pp pq pb v : Json)
    (hq : route.query = some (.objS sh b))
    (hreq : req.query = .obj fsJson)
    (hk : shapeLookup sh k = some fsch)
    (hargs : (expressDispatch route req handler).handlerArgs = some (pp, pq, pb))
    (hv : objLookup fsJson k = some v) :
    ∃ w, zparse fsch (coerceQueryValue fsch v) = .ok w ∧
      jsonGet pq k = some w := by
  rcases hstg : expressParseStage route req with es | trip
  · simp only [expressDispatch, hstg] at hargs
    cases hargs
  · simp only [expressDispatch, hstg] at hargs
    injection hargs with h3
    rcases trip with ⟨a, b2, c⟩
    simp only [Prod.mk.injEq] at h3
    obtain ⟨rfl, rfl, rfl⟩ := h3
    simp only [expressParseStage] at hstg
    rcases hp : parsePart route.params req.params with es1 | pa <;>
      simp only [hp] at hstg
    · cases hstg
    rcases hq2 : parsePart route.query
        (preprocessQueryParams req.query route.query) with es2 | qa <;>
      simp only [hq2] at hstg
    · cases hstg
    rcases hb3 : expressBodyParse route.method route.body req.body with
      es3 | ba <;> simp only [hb3] at hstg
    · cases hstg
    injection hstg with htrip
    simp only [Prod.mk.injEq] at htrip
    obtain ⟨rfl, rfl, rfl⟩ := htrip
    rw [hq, hreq] at hq2
    simp only [parsePart, preprocessQueryParams] at hq2
    simp only [zparse] at hq2
    by_cases hL : ((zparseShape sh (preprocessObjFields fsJson sh)).1 ++
        (if b && !(unknownKeys (preprocessObjFields fsJson sh) sh).isEmpty then
          [(⟨[], "Unrecognized key(s) in object: " ++
            joinComma (unknownKeys (preprocessObjFields fsJson sh) sh)⟩ : Issue)]
         else [])).isEmpty = true
    · rw [if_pos hL] at hq2
      injection hq2 with hq3
      have hemp : (zparseShape sh (preprocessObjFields fsJson sh)).1 = [] := by
        have h12 : (zparseShape sh (preprocessObjFields fsJson sh)).1 = [] ∧
            (b = true → unknownKeys (preprocessObjFields fsJson sh) sh = []) := by
          simpa using hL
        exact h12.1
      have hpl := preprocessObjFields_lookup fsJson sh k v hv
      rw [hk] at hpl
      rcases zparseShape_lookup_ok sh (preprocessObjFields fsJson sh) k fsch
        (coerceQueryValue fsch v) hemp hk hpl with ⟨w, hw, hlook⟩
      refine ⟨w, hw, ?_⟩
      rw [← hq3]
      simpa [jsonGet] using hlook
    · rw [if_neg (by simpa using hL)] at hq2
      cases hq2

/-- C9: in the Express dispatch pipeline, for a route with a query schema, a
query field declared as a number (possibly wrapped in `optional`/`default`)
that receives the literal string `"42"` is delivered to the handler as the
number `42`; a field declared as a boolean receiving `"true"`/`"false"` is
delivered as the boolean `true`/`false` (whenever the request passes
validation, i.e. the handler runs at all). -/
theorem c9_query_coercion (route : RouteModel) (req : RequestModel)
    (handler : HandlerModel) (sh : Shape) (b : Bool) (fsJson : JsonObj)
    (k : String) (fsch : Schema) (pp pq pb : Json)
    (hq : route.query = some (.objS sh b))
    (hreq : req.query = .obj fsJson)
    (hk : shapeLookup sh k = some fsch)
    (hargs : (expressDispatch route req handler).handlerArgs = some (pp, pq, pb)) :
    (unwrapOptDefault fsch = .numS → objLookup fsJson k = some (.str "42") →
      jsonGet pq k = some (.num 42)) ∧
    (unwrapOptDefault fsch = .boolS → objLookup fsJson k = some (.str "true") →
      jsonGet pq k = some (.jbool true)) ∧
    (unwrapOptDefault fsch = .boolS → objLookup fsJson k = some (.str "false") →
      jsonGet pq k = some (.jbool false)) := by
  refine ⟨?_, ?_, ?_⟩
  · intro hu hv
    have hc : coerceQueryValue fsch (.str "42") = .num 42 := by
      have h42 : jsNumberOfString "42" = some 42 := by decide
      simp [coerceQueryValue, hu, h42]
    rcases expressDispatch_query_value route req handler sh b fsJson k fsch
      pp pq pb (.str "42") hq hreq hk hargs hv with ⟨w, hw, hlook⟩
    rw [hc, zparse_unwrap_num fsch hu 42] at hw
    injection hw with hw'
    rw [← hw'] at hlook
    exact hlook
  · intro hu hv
    have hc : coerceQueryValue fsch (.str "true") = .jbool true := by
      simp [coerceQueryValue, hu]
    rcases expressDispatch_query_value route req handler sh b fsJson k fsch
      pp pq pb (.str "true") hq hreq hk hargs hv with ⟨w, hw, hlook⟩
    rw [hc, zparse_unwrap_bool fsch hu true] at hw
    injection hw with hw'
    rw [← hw'] at hlook
    exact hlook
  · intro hu hv
    have hc : coerceQueryValue fsch (.str "false") = .jbool false := by
      simp [coerceQueryValue, hu]
    rcases expressDispatch_query_value route req handler sh b fsJson k fsch
      pp pq pb (.str "false") hq hreq hk hargs hv with ⟨w, hw, hlook⟩
    rw [hc, zparse_unwrap_bool fsch hu false] at hw
    injection hw with hw'
    rw [← hw'] at hlook
    exact hlook

/-- C9 witness: a `GET` route with query schema `{ n: number, f: boolean }`
receiving `?n=42&f=false`: the handler sees `n = 42` and `f = false`. -/
theorem c9_query_coercion_witness :
    ((unwrapOptDefault (.optS .numS) = .numS →
      objLookup (.cons "n" (.str "42") (.cons "f" (.str "false") .nil)) "n" =
        some (.str "42") →
      jsonGet (.obj (.cons "n" (.num 42) (.cons "f" (.jbool false) .nil))) "n" =
        some (.num 42)) ∧
    (unwrapOptDefault (.optS .numS) = .boolS →
      objLookup (.cons "n" (.str "42") (.cons "f" (.str "false") .nil)) "n" =
        some (.str "true") →
      jsonGet (.obj (.cons "n" (.num 42) (.cons "f" (.jbool false) .nil))) "n" =
        some (.jbool true)) ∧
    (unwrapOptDefault (.optS .numS) = .boolS →
      objLookup (.cons "n" (.str "42") (.cons "f" (.str "false") .nil)) "n" =
        some (.str "false") →
      jsonGet (.obj (.cons "n" (.num 42) (.cons "f" (.jbool false) .nil))) "n" =
        some (.jbool false))) :=
  c9_query_coercion
    ⟨.GET, none,
      some (.objS (.cons "n" (.optS .numS) (.cons "f" .boolS .nil)) true),
      none, CreateResponses []⟩
    ⟨.obj .nil, .obj (.cons "n" (.str "42") (.cons "f" (.str "false") .nil)),
      .obj .nil⟩
    (fun _ _ _ => (201, .null))
    (.cons "n" (.optS .numS) (.cons "f" .boolS .nil)) true
    (.cons "n" (.str "42") (.cons "f" (.str "false") .nil))
    "n" (.optS .numS)
    (.obj .nil) (.obj (.cons "n" (.num 42) (.cons "f" (.jbool false) .nil)))
    (.obj .nil)
    rfl rfl (by decide) (by decide)

/-- Modelled from the claim's own wording (for comparison with the
source-derived `preprocessQueryParams`): a field's value changes only when it
is a string whose declared field type — after unwrapping
`optional`/`default` — is number with `Number(value)` not `NaN`, or boolean
with the value exactly `'true'` or `'false'`; every other field passes
through unchanged. -/
def specCoerceValue (shape : Shape) (k : String) (v : Json) : Json :=
  match v, shapeLookup shape k with
  | .str s, some fsch =>
      if unwrapOptDefault fsch = .numS ∧ (jsNumberOfString s).isSome then
        match jsNumberOfString s with
        | some n => .num n
        | none => .str s
      else if unwrapOptDefault fsch = .boolS ∧ s = "true" then .jbool true
      else if unwrapOptDefault fsch = .boolS ∧ s = "false" then .jbool false
      else .str s
  | v, _ => v

/-- The claim's per-field rule applied to every field of the query object. -/
def specCoerceFields : JsonObj → Shape → JsonObj
  | .nil, _ => .nil
  | .cons k v t, sh => .cons k (specCoerceValue sh k v) (specCoerceFields t sh)

theorem specCoerceValue_none (sh : Shape) (k : String) (v : Json)
    (hs : shapeLookup sh k = none) : specCoerceValue sh k v = v := by
  rcases v with _ | bb | n | s | xs | fs2 <;> simp [specCoerceValue, hs]

theorem coerceQueryValue_eq_spec (sh : Shape) (k : String) (fsch : Schema)
    (v : Json) (hs : shapeLookup sh k = some fsch) :
    coerceQueryValue fsch v = specCoerceValue sh k v := by
  rcases v with _ | bb | n | s | xs | fs2
  · simp [coerceQueryValue, specCoerceValue, hs]
  · simp [coerceQueryValue, specCoerceValue, hs]
  · simp [coerceQueryValue, specCoerceValue, hs]
  · cases hu : unwrapOptDefault fsch with
    | strS => simp [coerceQueryValue, specCoerceValue, hs, hu]
    | numS =>
        rcases hm : jsNumberOfString s with _ | n2 <;>
          simp [coerceQueryValue, specCoerceValue, hs, hu, hm]
    | boolS =>
        by_cases st : s = "true"
        · simp [coerceQueryValue, specCoerceValue, hs, hu, st]
        · by_cases sf : s = "false" <;>
            simp [coerceQueryValue, specCoerceValue, hs, hu, st, sf]
    | anyS => simp [coerceQueryValue, specCoerceValue, hs, hu]
    | enumS vs2 => simp [coerceQueryValue, specCoerceValue, hs, hu]
    | objS sh2 b2 => simp [coerceQueryValue, specCoerceValue, hs, hu]
    | arrDetailS => simp [coerceQueryValue, specCoerceValue, hs, hu]
    | optS i2 => simp [coerceQueryValue, specCoerceValue, hs, hu]
    | defaultS i2 d2 => simp [coerceQueryValue, specCoerceValue, hs, hu]
    | nullableS i2 => simp [coerceQueryValue, specCoerceValue, hs, hu]
    | refineNotNull i2 => simp [coerceQueryValue, specCoerceValue, hs, hu]
  · simp [coerceQueryValue, specCoerceValue, hs]
  · simp [coerceQueryValue, specCoerceValue, hs]

theorem preprocessObjFields_eq_spec : ∀ (fs : JsonObj) (sh : Shape),
    preprocessObjFields fs sh = specCoerceFields fs sh
  | .nil, _ => rfl
  | .cons k v t, sh => by
      have ih := preprocessObjFields_eq_spec t sh
      rcases hs : shapeLookup sh k with _ | fsch
      · simp [preprocessObjFields, specCoerceFields, hs, ih,
          specCoerceValue_none sh k v hs]
      · simp [preprocessObjFields, specCoerceFields, hs, ih,
          coerceQueryValue_eq_spec sh k fsch v hs]

/-- C10: the query-coercion pre-pass computes, field by field, exactly the
claim's rule — a field's value changes only when it is a string whose
declared type (after unwrapping `optional`/`default`) is number with
`Number(value)` not `NaN` (never delivering `NaN`: a non-numeric string stays
the unchanged string), or boolean with the literal `'true'`/`'false'`; all
other fields, and fields with no declared schema, pass through unchanged.
The function builds a fresh object (`{ ...query }`), leaving the inbound
query untouched. -/
theorem c10_preprocess_characterization :
    (∀ (sh : Shape) (b : Bool) (fs : JsonObj),
      preprocessQueryParams (.obj fs) (some (.objS sh b)) =
        .obj (specCoerceFields fs sh)) ∧
    (∀ (sh : Shape) (k : String) (v : Json),
      specCoerceValue sh k v ≠ v →
      ∃ s, v = .str s ∧ ∃ fsch, shapeLookup sh k = some fsch ∧
        ((unwrapOptDefault fsch = .numS ∧ ∃ n, jsNumberOfString s = some n ∧
          specCoerceValue sh k v = .num n) ∨
         (unwrapOptDefault fsch = .boolS ∧
          ((s = "true" ∧ specCoerceValue sh k v = .jbool true) ∨
           (s = "false" ∧ specCoerceValue sh k v = .jbool false))))) := by
  constructor
  · intro sh b fs
    simp only [preprocessQueryParams]
    exact congrArg Json.obj (preprocessObjFields_eq_spec fs sh)
  · intro sh k v hne
    rcases hs : shapeLookup sh k with _ | fsch
    · exact absurd (specCoerceValue_none sh k v hs) hne
    · rcases v with _ | bb | n | s | xs | fs2
      · exact absurd (by simp [specCoerceValue, hs]) hne
      · exact absurd (by simp [specCoerceValue, hs]) hne
      · exact absurd (by simp [specCoerceValue, hs]) hne
      · refine ⟨s, rfl, fsch, rfl, ?_⟩
        by_cases h1 : unwrapOptDefault fsch = .numS
        · rcases hm : jsNumberOfString s with _ | n2
          · exact absurd (by simp [specCoerceValue, hs, h1, hm]) hne
          · exact Or.inl ⟨h1, n2, rfl, by simp [specCoerceValue, hs, h1, hm]⟩
        · by_cases h2 : unwrapOptDefault fsch = .boolS
          · by_cases st : s = "true"
            · exact Or.inr ⟨h2, Or.inl ⟨st,
                by simp [specCoerceValue, hs, h1, h2, st]⟩⟩
            · by_cases sf : s = "false"
              · exact Or.inr ⟨h2, Or.inr ⟨sf,
                  by simp [specCoerceValue, hs, h1, h2, st, sf]⟩⟩
              · exact absurd (by simp [specCoerceValue, hs, h1, h2, st, sf]) hne
          · exact absurd (by simp [specCoerceValue, hs, h1, h2]) hne
      · exact absurd (by simp [specCoerceValue, hs]) hne
      · exact absurd (by simp [specCoerceValue, hs]) hne

/-- C10 witness: on the query `{ n: "42", x: "abc" }` against the schema
`{ n: number, x: number }`, only `n` changes (to `42`); `"abc"` is not
numeric, so `x` passes through as the unchanged string. -/
theorem c10_preprocess_characterization_witness :
    preprocessQueryParams
      (.obj (.cons "n" (.str "42") (.cons "x" (.str "abc") .nil)))
      (some (.objS (.cons "n" .numS (.cons "x" .numS .nil)) true)) =
      .obj (specCoerceFields
        (.cons "n" (.str "42") (.cons "x" (.str "abc") .nil))
        (.cons "n" .numS (.cons "x" .numS .nil))) ∧
    (∃ s, (Json.str "42") = .str s ∧ ∃ fsch,
      shapeLookup (.cons "n" .numS (.cons "x" .numS .nil)) "n" = some fsch ∧
      ((unwrapOptDefault fsch = .numS ∧ ∃ n, jsNumberOfString s = some n ∧
        specCoerceValue (.cons "n" .numS (.cons "x" .numS .nil)) "n"
          (.str "42") = .num n) ∨
       (unwrapOptDefault fsch = .boolS ∧
        ((s = "true" ∧ specCoerceValue (.cons "n" .numS (.cons "x" .numS .nil))
            "n" (.str "42") = .jbool true) ∨
         (s = "false" ∧ specCoerceValue (.cons "n" .numS (.cons "x" .numS .nil))
            "n" (.str "42") = .jbool false))))) :=
  ⟨c10_preprocess_characterization.1
      (.cons "n" .numS (.cons "x" .numS .nil)) true
      (.cons "n" (.str "42") (.cons "x" (.str "abc") .nil)),
   c10_preprocess_characterization.2
      (.cons "n" .numS (.cons "x" .numS .nil)) "n" (.str "42") (by decide)⟩
